import Mathlib

/-!
Shallow embedding of the two source files of the repository:

  * `stanza/utils/datasets/sentiment/process_pl_polemo2.py`
    (corpus converter: `convert_label`, `read_sentences_and_labels`, `tokenize`)
  * `stanza/models/classifiers/trainer.py`
    (checkpoint manager: `Trainer.save`, `Trainer.load`, `Trainer.load_pretrain`,
     `Trainer.build_optimizer`)

Python strings are modelled as `List Char`; the file system as an explicit
record threaded through `save`/`load`; the external collaborators of the
trainer (embedding loader, character language models, BERT loader, the
classifier constructor itself, which all live outside the given sources) as
an `Env` of abstract functions.
-/

set_option autoImplicit false
set_option linter.unusedVariables false

namespace Stanza

/-- Python `str`, modelled as its character list. -/
abbrev Str := List Char

/-- Convert a Lean string literal to the `Str` model. -/
def str (s : String) : Str := s.data

/-- `s.rsplit(c, 1)` from Python, returning `some (before, after)` split at the
LAST occurrence of `c`, or `none` when `c` does not occur (in which case Python
returns the one-element list `[s]`). -/
def rsplitOnce (c : Char) : Str → Option (Str × Str)
  | [] => none
  | x :: xs =>
    match rsplitOnce c xs with
    | some (l, r) => some (x :: l, r)
    | none => if x = c then some ([], xs) else none

/-- Python `str.strip()`: drop whitespace from both ends. -/
def pyStrip (s : Str) : Str :=
  ((s.dropWhile Char.isWhitespace).reverse.dropWhile Char.isWhitespace).reverse

/-- `SentimentDatum` from `stanza.models.classifiers.data` (a namedtuple of a
sentiment label and a text payload; the payload is a raw string before
tokenization and a token list after, hence the type parameter). -/
structure SentimentDatum (τ : Type) where
  sentiment : Int
  text : τ
  deriving DecidableEq, Repr

/-- `convert_label` from `process_pl_polemo2.py`: the fixed four-way label map,
defaulting to the sentinel `-1`. -/
def convert_label (label : Str) : Int :=
  if label = str "__label__z_minus_m" then 0
  else if label = str "__label__z_zero" then 1
  else if label = str "__label__z_amb" then 2
  else if label = str "__label__z_plus_m" then 3
  else -1

/-- `read_sentences_and_labels` from `process_pl_polemo2.py`, over the list of
lines of the file: `pieces = line.rsplit(" ", 1)`; skip when fewer than two
pieces; convert the stripped label; skip when the sentinel `-1`; otherwise
append `SentimentDatum(label, text.strip())`. -/
def read_sentences_and_labels : List Str → List (SentimentDatum Str)
  | [] => []
  | line :: rest =>
    match rsplitOnce ' ' line with
    | none => read_sentences_and_labels rest
    | some (text, label0) =>
      let label := convert_label (pyStrip label0)
      if label = -1 then read_sentences_and_labels rest
      else ⟨label, pyStrip text⟩ :: read_sentences_and_labels rest

/-- A token of the external pipeline's output (only its `.text` is consumed). -/
structure Token where
  text : Str
  deriving DecidableEq, Repr

/-- A sentence of the external pipeline's output. -/
structure Sentence where
  tokens : List Token
  deriving DecidableEq, Repr

/-- A document of the external pipeline's output. -/
structure Document where
  sentences : List Sentence
  deriving DecidableEq, Repr

/-- The two return shapes of the external pipeline: a per-document list, or a
single `Document` (the `isinstance(out_docs, list)` test in `tokenize`). -/
inductive PipeResult where
  | docs (l : List Document)
  | single (d : Document)

/-- A Python list comprehension whose element expression may raise: `none` as
soon as one element raises. -/
def traverseOption {α β : Type} (f : α → Option β) : List α → Option (List β)
  | [] => some []
  | a :: l =>
    match f a, traverseOption f l with
    | some b, some bs => some (b :: bs)
    | _, _ => none

/-- `tokenize` from `process_pl_polemo2.py`. The external pipeline is passed as
a function. Python's `doc.sentences[0]` and `out_docs.sentences[i]` raise
`IndexError` when out of range; that partiality is modelled by `Option`
(`none` = the call raises). -/
def tokenize (sentiment_data : List (SentimentDatum Str))
    (pipe : List Str → PipeResult) : Option (List (SentimentDatum (List Str))) :=
  let docs := sentiment_data.map (fun datum => datum.text)
  match pipe docs with
  | PipeResult.docs out_docs =>
    traverseOption
      (fun p => (p.2.sentences.head?).map
        (fun s => ⟨p.1.sentiment, s.tokens.map (fun t => t.text)⟩))
      (sentiment_data.zip out_docs)
  | PipeResult.single out_doc =>
    traverseOption
      (fun p => (out_doc.sentences.get? p.1).map
        (fun s => ⟨p.2.sentiment, s.tokens.map (fun t => t.text)⟩))
      sentiment_data.enum

/-! ## Checkpoint manager (`stanza/models/classifiers/trainer.py`) -/

/-- First-match association-list lookup, used for state dicts and the modelled
file system. -/
def alookup {α β : Type} [DecidableEq α] (k : α) : List (α × β) → Option β
  | [] => none
  | (k0, v) :: rest => if k0 = k then some v else alookup k rest

/-- Python `str.lower()`. -/
def pyLower (s : Str) : Str := s.map Char.toLower

/-- `os.path.split(p)[0]`: the part of the path before the last slash, empty
when there is none. -/
def osPathDirname (p : Str) : Str :=
  match rsplitOnce '/' p with
  | some (d, _) => d
  | none => []

/-- `os.path.join(a, b)` for the cases arising here: an absolute `b` wins,
otherwise the components are joined with a slash. -/
def osPathJoin (a b : Str) : Str :=
  if b.head? = some '/' then b
  else if a = [] then b
  else if a.getLast? = some '/' then a ++ b
  else a ++ ('/' :: b)

/-- Stand-in for an opaque tensor blob owned by the external ML framework. -/
abbrev Tensor := Int

/-- A model state dict: parameter name to tensor. -/
abbrev StateDict := List (Str × Tensor)

/-- Stand-in for an opaque optimizer state blob (`optimizer.state_dict()`). -/
abbrev OptState := Int

/-- Stand-ins for the opaque external resources acquired at load time. -/
abbrev Pretrain := Int

/-- Stand-in for a loaded character language model. -/
abbrev Charlm := Int

/-- Stand-in for a loaded elmo model. -/
abbrev Elmo := Int

/-- Stand-in for a loaded BERT model (`None` when no bert name is set). -/
abbrev BertModel := Option Int

/-- Stand-in for a loaded BERT tokenizer. -/
abbrev BertTokenizer := Option Int

/-- `ModelType` from `stanza.models.classifiers.utils` (external to the given
sources; only `CNN` is accepted by `Trainer.load`, anything else raises). -/
inductive ModelType where
  | CNN
  | CONSTITUENCY
  deriving DecidableEq, Repr

/-- The slice of the classifier's saved config that `Trainer.load` consumes:
`config.model_type` and `config.bert_model`. -/
structure ClassifierConfig where
  model_type : ModelType
  bert_model : Option Str
  deriving DecidableEq, Repr

/-- The `params` entry of a checkpoint, as produced by
`model.get_params(...)`: the weight dict plus `config`, `labels`,
`extra_vocab`. -/
structure ModelParams where
  model : StateDict
  config : ClassifierConfig
  labels : List Str
  extra_vocab : Option (List Str)
  deriving DecidableEq, Repr

/-- Modelled from the spec: `cnn_classifier.CNNClassifier` lives outside the
given sources. The model holds its parameter tensors (a state dict), the names
of the parameters that belong to externally loaded frozen modules (skipped
when saving with `skip_modules`), and its config, labels and extra vocab. -/
structure CNNClassifier where
  state : StateDict
  module_keys : List Str
  config : ClassifierConfig
  labels : List Str
  extra_vocab : Option (List Str)
  deriving DecidableEq, Repr

/-- Modelled from the spec: `CNNClassifier.get_params(skip_modules)` (external
to the given sources) returns the checkpointable parameters; with
`skip_modules` the weights of externally loaded frozen modules are left out. -/
def CNNClassifier.get_params (m : CNNClassifier) (skip_modules : Bool) : ModelParams :=
  { model := if skip_modules
      then m.state.filter (fun kv => decide (kv.1 ∉ m.module_keys))
      else m.state
    config := m.config
    labels := m.labels
    extra_vocab := m.extra_vocab }

/-- Modelled from the spec: `model.load_state_dict(sd, strict=False)` of the
external ML framework overwrites each parameter present in both the model and
`sd` with the saved value, tolerating keys missing from either side. -/
def CNNClassifier.load_state_dict (m : CNNClassifier) (sd : StateDict) : CNNClassifier :=
  { m with state := m.state.map (fun kv => (kv.1, (alookup kv.1 sd).getD kv.2)) }

/-- The optimizer kinds `Trainer.build_optimizer` can construct. -/
inductive OptimKind where
  | sgd
  | adadelta
  | madgrad
  deriving DecidableEq, Repr

/-- Modelled from the spec: an optimizer of the external ML framework, with the
hyperparameters `build_optimizer` passes and an opaque state blob. -/
structure Optimizer where
  kind : OptimKind
  lr : Int
  momentum : Option Int
  weight_decay : Int
  st : OptState
  deriving DecidableEq, Repr

/-- `optimizer.state_dict()` of the external framework. -/
def Optimizer.state_dict (o : Optimizer) : OptState := o.st

/-- `optimizer.load_state_dict(st)` of the external framework. -/
def Optimizer.load_state_dict (o : Optimizer) (st : OptState) : Optimizer :=
  { o with st := st }

/-- A serialized checkpoint record: a dict with optional keys (a `none` field
models an absent key). `save` writes the first five fields; the last four are
the older flat layout that the backward-compatible reader also accepts. -/
structure Checkpoint where
  params : Option ModelParams
  epochs_trained : Option Int
  global_step : Option Int
  best_score : Option (Option Int)
  optimizer_state_dict : Option OptState
  model : Option StateDict
  config : Option ClassifierConfig
  labels : Option (List Str)
  extra_vocab : Option (Option (List Str))
  deriving DecidableEq, Repr

/-- The file system as `save`/`load` observe it: serialized checkpoints by
path, other existing files (e.g. pretrain files; a path here that holds no
checkpoint deserializes with an error), and the set of directories. -/
structure FS where
  checkpoints : List (Str × Checkpoint)
  otherFiles : List Str
  dirs : List Str
  deriving DecidableEq, Repr

/-- `os.path.exists`. -/
def FS.pathExists (fs : FS) (p : Str) : Bool :=
  (alookup p fs.checkpoints).isSome || fs.otherFiles.contains p

/-- `torch.load(p, ...)`: `some` when `p` holds a well-formed checkpoint. -/
def FS.lookupCheckpoint (fs : FS) (p : Str) : Option Checkpoint :=
  alookup p fs.checkpoints

/-- `torch.save(record, p)`: replaces whatever was at `p`. -/
def FS.write (fs : FS) (p : Str) (c : Checkpoint) : FS :=
  ⟨(p, c) :: fs.checkpoints, fs.otherFiles, fs.dirs⟩

/-- `os.makedirs(d, exist_ok=True)`. -/
def FS.makedirs (fs : FS) (d : Str) : FS :=
  ⟨fs.checkpoints, fs.otherFiles, d :: fs.dirs⟩

/-- The Python exceptions the trainer code can raise. -/
inductive Err where
  | fileNotFound (msg : Str)
  | keyError (key : Str)
  | valueError (msg : Str)
  | moduleNotFound (msg : Str)
  | runtimeError (msg : Str)
  | nameError (name : Str)
  | deserializationError (path : Str)
  deriving DecidableEq, Repr

/-- The fields of the `args` namespace that the given trainer code reads.
Optional string fields model Python values that may be `None`/empty (falsy). -/
structure Args where
  save_dir : Str
  cuda : Bool
  optim : Str
  learning_rate : Int
  momentum : Int
  weight_decay : Int
  wordvec_pretrain_file : Option Str
  wordvec_type : Option Str
  wordvec_raw_file : Option Str
  shorthand : Str
  pretrain_max_vocab : Int
  charlm_forward_file : Option Str
  charlm_backward_file : Option Str
  use_elmo : Bool
  elmo_model : Str
  deriving DecidableEq, Repr

/-- The external collaborators `Trainer.load` re-acquires (embedding loader,
character language models, BERT loader, the classifier constructor, the
optimizer constructors' fresh state): all live outside the given sources and
are passed in abstractly. -/
structure Env where
  load_pretrain_file : Str → Pretrain
  pretrain_ctor : Str → Str → Int → Pretrain
  load_charlm : Option Str → Option Charlm
  load_bert : Option Str → BertModel × BertTokenizer
  init_classifier : Pretrain → Option (List Str) → List Str → Option Charlm →
    Option Charlm → Option Elmo → BertModel → BertTokenizer → ClassifierConfig →
    CNNClassifier
  fresh_opt_state : OptimKind → OptState
  madgrad_available : Bool

/-- `Trainer` from `trainer.py`: the classifier, its optional optimizer and the
progress counters. -/
structure Trainer where
  model : CNNClassifier
  optimizer : Option Optimizer
  epochs_trained : Int
  global_step : Int
  best_score : Option Int
  deriving DecidableEq, Repr

/-- `Trainer.save`. The method mutates nothing on `self`; it is embedded in
state-passing style returning the (unchanged) `self` next to the new file
system. `epochs_trained_arg` is the optional `epochs_trained=None` override. -/
def Trainer.save (self : Trainer) (fs : FS) (filename : Str)
    (epochs_trained_arg : Option Int) (skip_modules : Bool) (save_optimizer : Bool) :
    Trainer × FS :=
  let epochs_trained := epochs_trained_arg.getD self.epochs_trained
  let save_dir := osPathDirname filename
  let fs := fs.makedirs save_dir
  let model_params := self.model.get_params skip_modules
  let params : Checkpoint :=
    { params := some model_params
      epochs_trained := some epochs_trained
      global_step := some self.global_step
      best_score := some self.best_score
      optimizer_state_dict :=
        if save_optimizer then self.optimizer.map Optimizer.state_dict else none
      model := none
      config := none
      labels := none
      extra_vocab := none }
  (self, FS.write fs filename params)

/-- `Trainer.build_optimizer`. `madgrad_available` models whether the
`madgrad` package can be imported. -/
def Trainer.build_optimizer (env : Env) (model : CNNClassifier) (args : Args) :
    Except Err Optimizer :=
  if pyLower args.optim = str "sgd" then
    Except.ok ⟨OptimKind.sgd, args.learning_rate, some args.momentum,
      args.weight_decay, env.fresh_opt_state OptimKind.sgd⟩
  else if pyLower args.optim = str "adadelta" then
    Except.ok ⟨OptimKind.adadelta, args.learning_rate, none,
      args.weight_decay, env.fresh_opt_state OptimKind.adadelta⟩
  else if pyLower args.optim = str "madgrad" then
    if env.madgrad_available then
      Except.ok ⟨OptimKind.madgrad, args.learning_rate, some args.momentum,
        args.weight_decay, env.fresh_opt_state OptimKind.madgrad⟩
    else
      Except.error (Err.moduleNotFound
        (str "Could not create madgrad optimizer.  Perhaps the madgrad package is not installed"))
  else
    Except.error (Err.valueError (str "Unknown optimizer: " ++ args.optim))

/-- `Trainer.load_pretrain`. Note the source file never imports `utils`, so
the `utils.get_wordvec_file(...)` fallback raises `NameError` at runtime. -/
def Trainer.load_pretrain (env : Env) (fs : FS) (args : Args) : Except Err Pretrain := do
  let pretrain_file ←
    match args.wordvec_pretrain_file with
    | some pf => Except.ok pf
    | none =>
      match args.wordvec_type with
      | some wt => Except.ok (args.save_dir ++ ('/' :: args.shorthand) ++
          ('.' :: pyLower wt) ++ str ".pretrain.pt")
      | none => Except.error (Err.runtimeError
          (str "TODO: need to get the wv type back from get_wordvec_file"))
  if fs.pathExists pretrain_file then
    Except.ok (env.load_pretrain_file pretrain_file)
  else
    match args.wordvec_raw_file with
    | some vec_file => Except.ok (env.pretrain_ctor pretrain_file vec_file args.pretrain_max_vocab)
    | none => Except.error (Err.nameError (str "utils"))

/-- The body of `Trainer.load` after the filename has been resolved: read and
deserialize the record, extract counters, params (new layout, or the older
flat layout), rebuild the classifier and optionally the optimizer. -/
def Trainer.loadResolved (env : Env) (fs : FS) (filename : Str) (args : Args)
    (load_optimizer : Bool) : Except Err Trainer := do
  let checkpoint ←
    match fs.lookupCheckpoint filename with
    | some c => Except.ok c
    | none => Except.error (Err.deserializationError filename)
  let epochs_trained := checkpoint.epochs_trained.getD 0
  let global_step := checkpoint.global_step.getD 0
  let best_score := checkpoint.best_score.getD none
  let model_params ←
    match checkpoint.params with
    | some p => Except.ok p
    | none => do
      let m ← match checkpoint.model with
        | some m => Except.ok m
        | none => Except.error (Err.keyError (str "model"))
      let c ← match checkpoint.config with
        | some c => Except.ok c
        | none => Except.error (Err.keyError (str "config"))
      let l ← match checkpoint.labels with
        | some l => Except.ok l
        | none => Except.error (Err.keyError (str "labels"))
      let ev ← match checkpoint.extra_vocab with
        | some ev => Except.ok ev
        | none => Except.error (Err.keyError (str "extra_vocab"))
      Except.ok (⟨m, c, l, ev⟩ : ModelParams)
  let model_type := model_params.config.model_type
  let pretrain ← Trainer.load_pretrain env fs args
  let elmo_model ← if args.use_elmo
    then (Except.error (Err.nameError (str "utils")) : Except Err (Option Elmo))
    else Except.ok none
  let charmodel_forward := env.load_charlm args.charlm_forward_file
  let charmodel_backward := env.load_charlm args.charlm_backward_file
  let (bert_model, bert_tokenizer) := env.load_bert model_params.config.bert_model
  let model ←
    match model_type with
    | ModelType.CNN => Except.ok (env.init_classifier pretrain
        model_params.extra_vocab model_params.labels charmodel_forward
        charmodel_backward elmo_model bert_model bert_tokenizer
        model_params.config)
    | _ => Except.error (Err.valueError (str "Unknown model type"))
  let model := model.load_state_dict model_params.model
  let optimizer ←
    if load_optimizer then do
      let optimizer ← Trainer.build_optimizer env model args
      match checkpoint.optimizer_state_dict with
      | some st => Except.ok (some (optimizer.load_state_dict st))
      | none => Except.ok (some optimizer)
    else Except.ok (none : Option Optimizer)
  Except.ok (⟨model, optimizer, epochs_trained, global_step, best_score⟩ : Trainer)

/-- `Trainer.load`: resolve the filename (falling back to
`os.path.join(args.save_dir, filename)`, raising `FileNotFoundError` when
neither exists), then load from the resolved path. -/
def Trainer.load (env : Env) (fs : FS) (filename : Str) (args : Args)
    (load_optimizer : Bool) : Except Err Trainer :=
  if fs.pathExists filename then
    Trainer.loadResolved env fs filename args load_optimizer
  else if fs.pathExists (osPathJoin args.save_dir filename) then
    Trainer.loadResolved env fs (osPathJoin args.save_dir filename) args load_optimizer
  else
    Except.error (Err.fileNotFound (str "Cannot find model in " ++ filename ++
      str " or in " ++ osPathJoin args.save_dir filename))

/-! ## Lemmas and claim theorems -/

/-- No datum produced by the corpus reader carries the sentinel label: the
reader drops every line whose converted label is `-1`. -/
theorem read_sentences_and_labels_no_sentinel :
    ∀ (lines : List Str), ∀ d ∈ read_sentences_and_labels lines, d.sentiment ≠ -1 := by
  intro lines
  induction lines with
  | nil =>
    intro d hd
    simp [read_sentences_and_labels] at hd
  | cons line rest ih =>
    intro d hd
    cases h : rsplitOnce ' ' line with
    | none =>
      rw [read_sentences_and_labels, h] at hd
      exact ih d hd
    | some tl =>
      rw [read_sentences_and_labels, h] at hd
      by_cases hl : convert_label (pyStrip tl.2) = -1
      · simp only [hl, if_pos rfl] at hd
        exact ih d hd
      · simp only [if_neg hl, List.mem_cons] at hd
        cases hd with
        | inl he => rw [he]; exact hl
        | inr hm => exact ih d hm

/-- C4: the four defined label strings map to 0, 1, 2, 3; every other string
maps to the sentinel `-1`; and no datum in the output of
`read_sentences_and_labels` carries the sentinel. -/
theorem convert_label_total_and_read_excludes_sentinel :
    (convert_label (str "__label__z_minus_m") = 0 ∧
     convert_label (str "__label__z_zero") = 1 ∧
     convert_label (str "__label__z_amb") = 2 ∧
     convert_label (str "__label__z_plus_m") = 3) ∧
    (∀ s : Str, s ∉ [str "__label__z_minus_m", str "__label__z_zero",
        str "__label__z_amb", str "__label__z_plus_m"] → convert_label s = -1) ∧
    (∀ lines : List Str, ∀ d ∈ read_sentences_and_labels lines, d.sentiment ≠ -1) := by
  refine ⟨by decide, ?_, read_sentences_and_labels_no_sentinel⟩
  intro s hs
  simp only [List.mem_cons, List.not_mem_nil, or_false, not_or] at hs
  obtain ⟨h1, h2, h3, h4⟩ := hs
  rw [convert_label, if_neg h1, if_neg h2, if_neg h3, if_neg h4]

/-- Witness for C4 at concrete inputs: an unknown string maps to `-1`, and a
concrete datum read from a well-formed line has a non-sentinel label. -/
theorem convert_label_total_and_read_excludes_sentinel_witness :
    convert_label (str "hello") = -1 ∧
    (SentimentDatum.mk 2 (str "good") : SentimentDatum Str).sentiment ≠ -1 :=
  ⟨convert_label_total_and_read_excludes_sentinel.2.1 (str "hello") (by decide),
   convert_label_total_and_read_excludes_sentinel.2.2
     [str "good __label__z_amb"] ⟨2, str "good"⟩ (by decide)⟩

/-- C7: a line with no space (so `rsplit(" ", 1)` yields a single piece) is
skipped, and the data read for the remaining lines is unchanged. -/
theorem read_sentences_and_labels_skips_unsplittable
    (pre : List Str) (line : Str) (post : List Str)
    (h : rsplitOnce ' ' line = none) :
    read_sentences_and_labels (pre ++ line :: post) =
    read_sentences_and_labels (pre ++ post) := by
  induction pre with
  | nil =>
    simp only [List.nil_append]
    rw [read_sentences_and_labels, h]
  | cons p rest ih =>
    simp only [List.cons_append]
    cases hp : rsplitOnce ' ' p with
    | none =>
      rw [read_sentences_and_labels, hp, read_sentences_and_labels, hp, ih]
    | some tl =>
      rw [read_sentences_and_labels, hp, read_sentences_and_labels, hp]
      by_cases hl : convert_label (pyStrip tl.2) = -1
      · simp only [hl, if_pos rfl, ih]
      · simp only [if_neg hl, ih]

/-- Witness for C7: skipping the concrete unsplittable line `"nolabel"`. -/
theorem read_sentences_and_labels_skips_unsplittable_witness :
    read_sentences_and_labels
      [str "a __label__z_zero", str "nolabel", str "b __label__z_amb"] =
    read_sentences_and_labels [str "a __label__z_zero", str "b __label__z_amb"] :=
  read_sentences_and_labels_skips_unsplittable
    [str "a __label__z_zero"] (str "nolabel") [str "b __label__z_amb"] (by decide)

/-! ### Concrete fixtures used by witness theorems -/

/-- A concrete classifier config. -/
def cfgW : ClassifierConfig := ⟨ModelType.CNN, none⟩

/-- A concrete classifier. -/
def modelW : CNNClassifier :=
  ⟨[(str "w", 3), (str "b", 4)], [str "b"], cfgW, [str "neg", str "pos"], none⟩

/-- A concrete environment of external collaborators. -/
def envW : Env :=
  ⟨fun _ => 0, fun _ _ _ => 0, fun _ => none, fun _ => (none, none),
   fun _ _ _ _ _ _ _ _ cfg => ⟨[(str "w", 7), (str "extra", 1)], [], cfg, [str "neg"], none⟩,
   fun _ => 0, false⟩

/-- Concrete args with an unrecognized optimizer name. -/
def argsW : Args :=
  ⟨str "save", false, str "foo", 1, 2, 3, some (str "pt"), none, none,
   str "sh", 100, none, none, false, str ""⟩

/-- Concrete args asking for the madgrad optimizer (mixed case). -/
def argsMad : Args :=
  ⟨str "save", false, str "MadGrad", 1, 2, 3, some (str "pt"), none, none,
   str "sh", 100, none, none, false, str ""⟩

/-! ### Saving -/

/-- Reading back the path just written by `save` yields exactly the record the
source builds: `params`, `epochs_trained` (the override, defaulting to the
field), `global_step`, `best_score`, and `optimizer_state_dict` only when
requested and present. -/
theorem save_lookup (t : Trainer) (fs : FS) (fn : Str) (eta : Option Int)
    (sm so : Bool) :
    FS.lookupCheckpoint (Trainer.save t fs fn eta sm so).2 fn =
      some ⟨some (t.model.get_params sm), some (eta.getD t.epochs_trained),
        some t.global_step, some t.best_score,
        (if so then t.optimizer.map Optimizer.state_dict else none),
        none, none, none, none⟩ := by
  simp [Trainer.save, FS.write, FS.lookupCheckpoint, FS.makedirs, alookup]

/-- C8: every save writes, at the given path and regardless of what was there
before, exactly the record with `params`, `epochs_trained`, `global_step`,
`best_score`, with `optimizer_state_dict` present iff requested and an
optimizer exists, and no other (old-layout) fields; the parent directory is
created. -/
theorem save_writes_exact_record (t : Trainer) (fs : FS) (fn : Str)
    (eta : Option Int) (sm so : Bool) :
    (FS.lookupCheckpoint (Trainer.save t fs fn eta sm so).2 fn =
      some ⟨some (t.model.get_params sm), some (eta.getD t.epochs_trained),
        some t.global_step, some t.best_score,
        (if so then t.optimizer.map Optimizer.state_dict else none),
        none, none, none, none⟩) ∧
    osPathDirname fn ∈ (Trainer.save t fs fn eta sm so).2.dirs ∧
    ((if so then t.optimizer.map Optimizer.state_dict else none).isSome = true ↔
      (so = true ∧ t.optimizer.isSome = true)) := by
  refine ⟨save_lookup t fs fn eta sm so, ?_, ?_⟩
  · simp [Trainer.save, FS.write, FS.makedirs]
  · cases so <;> cases t.optimizer <;> simp

/-- C10: `save` mutates nothing on the trainer (embedded in state-passing
style, the returned trainer is the argument), even when an explicit
`epochs_trained` override is passed; the override only changes the persisted
record. -/
theorem save_does_not_mutate (t : Trainer) (fs : FS) (fn : Str)
    (eta : Option Int) (sm so : Bool) :
    (Trainer.save t fs fn eta sm so).1 = t ∧
    (FS.lookupCheckpoint (Trainer.save t fs fn eta sm so).2 fn).map
        Checkpoint.epochs_trained = some (some (eta.getD t.epochs_trained)) := by
  refine ⟨rfl, ?_⟩
  rw [save_lookup]
  rfl

/-- A concrete trainer holding negative progress counters (nothing in the
source prevents constructing or saving it). -/
def negTrainer : Trainer := ⟨modelW, none, -1, -2, none⟩

/-- Counterexample to C3 as stated: `save` persists whatever counters the
trainer holds, so a persisted checkpoint can carry a negative
`epochs_trained` (and `global_step`). -/
theorem save_counters_can_be_negative :
    ((FS.lookupCheckpoint (Trainer.save negTrainer ⟨[], [], []⟩ (str "d/m.pt")
        none true true).2 (str "d/m.pt")).map Checkpoint.epochs_trained =
      some (some (-1))) ∧
    ((FS.lookupCheckpoint (Trainer.save negTrainer ⟨[], [], []⟩ (str "d/m.pt")
        none true true).2 (str "d/m.pt")).map Checkpoint.global_step =
      some (some (-2))) ∧
    (-1 : Int) < 0 ∧ (-2 : Int) < 0 := by
  refine ⟨?_, ?_, by decide, by decide⟩ <;> rfl

/-- C3 (amended): the persisted counters equal the trainer's counters (with
the epochs override applied) at each save; consequently, across consecutive
saves they are non-negative and non-decreasing whenever the supplied
in-memory values are. -/
theorem save_counters_track_trainer
    (t1 t2 : Trainer) (fs : FS) (fn1 fn2 : Str) (o1 o2 : Option Int)
    (sm1 so1 sm2 so2 : Bool)
    (h1 : 0 ≤ o1.getD t1.epochs_trained) (h2 : 0 ≤ t1.global_step)
    (h3 : o1.getD t1.epochs_trained ≤ o2.getD t2.epochs_trained)
    (h4 : t1.global_step ≤ t2.global_step) :
    ∃ c1 c2 : Checkpoint,
      FS.lookupCheckpoint (Trainer.save t1 fs fn1 o1 sm1 so1).2 fn1 = some c1 ∧
      FS.lookupCheckpoint (Trainer.save t2 (Trainer.save t1 fs fn1 o1 sm1 so1).2
          fn2 o2 sm2 so2).2 fn2 = some c2 ∧
      c1.epochs_trained = some (o1.getD t1.epochs_trained) ∧
      c1.global_step = some t1.global_step ∧
      c2.epochs_trained = some (o2.getD t2.epochs_trained) ∧
      c2.global_step = some t2.global_step ∧
      (∀ e, c1.epochs_trained = some e → 0 ≤ e) ∧
      (∀ g, c1.global_step = some g → 0 ≤ g) ∧
      (∀ e1 e2, c1.epochs_trained = some e1 → c2.epochs_trained = some e2 → e1 ≤ e2) ∧
      (∀ g1 g2, c1.global_step = some g1 → c2.global_step = some g2 → g1 ≤ g2) := by
  refine ⟨_, _, save_lookup t1 fs fn1 o1 sm1 so1,
    save_lookup t2 _ fn2 o2 sm2 so2, rfl, rfl, rfl, rfl, ?_, ?_, ?_, ?_⟩
  · intro e he
    rw [Option.some_inj] at he
    exact he ▸ h1
  · intro g hg
    rw [Option.some_inj] at hg
    exact hg ▸ h2
  · intro e1 e2 he1 he2
    rw [Option.some_inj] at he1 he2
    exact he1 ▸ he2 ▸ h3
  · intro g1 g2 hg1 hg2
    rw [Option.some_inj] at hg1 hg2
    exact hg1 ▸ hg2 ▸ h4

/-- A concrete trainer with small non-negative counters. -/
def trainerW1 : Trainer := ⟨modelW, none, 1, 2, some 5⟩

/-- A concrete trainer with larger counters than `trainerW1`. -/
def trainerW2 : Trainer := ⟨modelW, some ⟨OptimKind.sgd, 1, some 2, 3, 9⟩, 3, 4, some 6⟩

/-- Witness for the amended C3 at concrete trainers and paths. -/
theorem save_counters_track_trainer_witness :
    ∃ c1 c2 : Checkpoint,
      FS.lookupCheckpoint (Trainer.save trainerW1 ⟨[], [], []⟩ (str "d/a.pt")
          none true true).2 (str "d/a.pt") = some c1 ∧
      FS.lookupCheckpoint (Trainer.save trainerW2 (Trainer.save trainerW1
          ⟨[], [], []⟩ (str "d/a.pt") none true true).2
          (str "d/b.pt") none true true).2 (str "d/b.pt") = some c2 ∧
      c1.epochs_trained = some ((none : Option Int).getD trainerW1.epochs_trained) ∧
      c1.global_step = some trainerW1.global_step ∧
      c2.epochs_trained = some ((none : Option Int).getD trainerW2.epochs_trained) ∧
      c2.global_step = some trainerW2.global_step ∧
      (∀ e, c1.epochs_trained = some e → 0 ≤ e) ∧
      (∀ g, c1.global_step = some g → 0 ≤ g) ∧
      (∀ e1 e2, c1.epochs_trained = some e1 → c2.epochs_trained = some e2 → e1 ≤ e2) ∧
      (∀ g1 g2, c1.global_step = some g1 → c2.global_step = some g2 → g1 ≤ g2) :=
  save_counters_track_trainer trainerW1 trainerW2 ⟨[], [], []⟩
    (str "d/a.pt") (str "d/b.pt") none none true true true true
    (by decide) (by decide) (by decide) (by decide)

/-! ### Building the optimizer -/

/-- C5: any optimizer name outside the case-insensitive set
{sgd, adadelta, madgrad} makes `build_optimizer` fail with a value error
naming the unknown optimizer; asking for madgrad with the package unavailable
fails with the dependency-missing error. -/
theorem build_optimizer_unknown_and_missing_dependency
    (env : Env) (model : CNNClassifier) (args : Args) :
    (pyLower args.optim ∉ [str "sgd", str "adadelta", str "madgrad"] →
      Trainer.build_optimizer env model args =
        Except.error (Err.valueError (str "Unknown optimizer: " ++ args.optim))) ∧
    (pyLower args.optim = str "madgrad" → env.madgrad_available = false →
      Trainer.build_optimizer env model args =
        Except.error (Err.moduleNotFound
          (str "Could not create madgrad optimizer.  Perhaps the madgrad package is not installed"))) := by
  constructor
  · intro h
    simp only [List.mem_cons, List.not_mem_nil, or_false, not_or] at h
    obtain ⟨h1, h2, h3⟩ := h
    rw [Trainer.build_optimizer, if_neg h1, if_neg h2, if_neg h3]
  · intro h hm
    have h1 : pyLower args.optim ≠ str "sgd" := by rw [h]; decide
    have h2 : pyLower args.optim ≠ str "adadelta" := by rw [h]; decide
    rw [Trainer.build_optimizer, if_neg h1, if_neg h2, if_pos h, hm]
    rfl

/-- Witness for C5: the concrete name "foo" is rejected with a value error,
and "MadGrad" with the package unavailable fails with the dependency error. -/
theorem build_optimizer_unknown_and_missing_dependency_witness :
    Trainer.build_optimizer envW modelW argsW =
      Except.error (Err.valueError (str "Unknown optimizer: " ++ argsW.optim)) ∧
    Trainer.build_optimizer envW modelW argsMad =
      Except.error (Err.moduleNotFound
        (str "Could not create madgrad optimizer.  Perhaps the madgrad package is not installed")) :=
  ⟨(build_optimizer_unknown_and_missing_dependency envW modelW argsW).1 (by decide),
   (build_optimizer_unknown_and_missing_dependency envW modelW argsMad).2
     (by decide) rfl⟩

/-! ### Loading: filename resolution and the backward-compatible layout -/

/-- C6: when neither the path nor the fallback under `args.save_dir` exists,
`load` raises the not-found error naming both; when only the fallback exists,
the checkpoint is loaded from the fallback path. -/
theorem load_missing_and_fallback (env : Env) (fs : FS) (filename : Str)
    (args : Args) (lo : Bool) :
    (fs.pathExists filename = false →
      fs.pathExists (osPathJoin args.save_dir filename) = false →
      Trainer.load env fs filename args lo =
        Except.error (Err.fileNotFound (str "Cannot find model in " ++ filename ++
          str " or in " ++ osPathJoin args.save_dir filename))) ∧
    (fs.pathExists filename = false →
      fs.pathExists (osPathJoin args.save_dir filename) = true →
      Trainer.load env fs filename args lo =
        Trainer.loadResolved env fs (osPathJoin args.save_dir filename) args lo) := by
  constructor
  · intro h1 h2
    simp [Trainer.load, h1, h2]
  · intro h1 h2
    simp [Trainer.load, h1, h2]

/-- A concrete new-layout checkpoint record. -/
def cpW : Checkpoint :=
  ⟨some ⟨[(str "w", 5)], cfgW, [str "neg"], none⟩, some 7, some 8, some (some 9),
   none, none, none, none, none⟩

/-- Witness for C6: with an empty file system the not-found error is raised;
with the record present only at `save/m.pt`, loading `m.pt` resolves to the
fallback path. -/
theorem load_missing_and_fallback_witness :
    Trainer.load envW ⟨[], [], []⟩ (str "m.pt") argsW false =
      Except.error (Err.fileNotFound (str "Cannot find model in " ++ str "m.pt" ++
        str " or in " ++ osPathJoin argsW.save_dir (str "m.pt"))) ∧
    Trainer.load envW ⟨[(str "save/m.pt", cpW)], [str "pt"], []⟩ (str "m.pt") argsW false =
      Trainer.loadResolved envW ⟨[(str "save/m.pt", cpW)], [str "pt"], []⟩
        (str "save/m.pt") argsW false := by
  constructor
  · exact (load_missing_and_fallback envW ⟨[], [], []⟩ (str "m.pt") argsW false).1
      (by decide) (by decide)
  · have h := (load_missing_and_fallback envW
      ⟨[(str "save/m.pt", cpW)], [str "pt"], []⟩ (str "m.pt") argsW false).2
      (by decide) (by decide)
    have hj : osPathJoin argsW.save_dir (str "m.pt") = str "save/m.pt" := by decide
    rw [hj] at h
    exact h

/-- Whether a path exists depends only on the checkpoint keys, not the stored
records. -/
theorem pathExists_key_congr (p : Str) (c1 c2 : Checkpoint)
    (rest : List (Str × Checkpoint)) (other dirs : List Str) (q : Str) :
    FS.pathExists ⟨(p, c1) :: rest, other, dirs⟩ q =
    FS.pathExists ⟨(p, c2) :: rest, other, dirs⟩ q := by
  simp only [FS.pathExists, alookup]
  by_cases h : p = q <;> simp [h]

/-- `load_pretrain` only consults the file system through `pathExists`. -/
theorem load_pretrain_congr (env : Env) (args : Args) (fs1 fs2 : FS)
    (h : ∀ q, fs1.pathExists q = fs2.pathExists q) :
    Trainer.load_pretrain env fs1 args = Trainer.load_pretrain env fs2 args := by
  unfold Trainer.load_pretrain
  cases args.wordvec_pretrain_file with
  | some pf =>
    simp only [bind, Except.bind, h pf]
  | none =>
    cases args.wordvec_type with
    | some wt =>
      simp only [bind, Except.bind, h]
    | none => rfl

/-- C9: a checkpoint in the older flat layout (no `params`; `model`, `config`,
`labels`, `extra_vocab` at top level) loads to exactly the same result as the
equivalent new-layout record. -/
theorem load_flat_layout_equivalent (env : Env) (args : Args) (lo : Bool)
    (p : Str) (rest : List (Str × Checkpoint)) (other dirs : List Str)
    (e g : Option Int) (b : Option (Option Int)) (osd : Option OptState)
    (m : StateDict) (c : ClassifierConfig) (l : List Str) (ev : Option (List Str)) :
    Trainer.load env
      ⟨(p, ⟨none, e, g, b, osd, some m, some c, some l, some ev⟩) :: rest, other, dirs⟩
      p args lo =
    Trainer.load env
      ⟨(p, ⟨some ⟨m, c, l, ev⟩, e, g, b, osd, none, none, none, none⟩) :: rest, other, dirs⟩
      p args lo := by
  have h1 : FS.pathExists
      ⟨(p, ⟨none, e, g, b, osd, some m, some c, some l, some ev⟩) :: rest, other, dirs⟩ p = true := by
    simp [FS.pathExists, alookup]
  have h2 : FS.pathExists
      ⟨(p, ⟨some ⟨m, c, l, ev⟩, e, g, b, osd, none, none, none, none⟩) :: rest, other, dirs⟩ p = true := by
    simp [FS.pathExists, alookup]
  have hl1 : FS.lookupCheckpoint
      ⟨(p, ⟨none, e, g, b, osd, some m, some c, some l, some ev⟩) :: rest, other, dirs⟩ p =
      some ⟨none, e, g, b, osd, some m, some c, some l, some ev⟩ := by
    simp [FS.lookupCheckpoint, alookup]
  have hl2 : FS.lookupCheckpoint
      ⟨(p, ⟨some ⟨m, c, l, ev⟩, e, g, b, osd, none, none, none, none⟩) :: rest, other, dirs⟩ p =
      some ⟨some ⟨m, c, l, ev⟩, e, g, b, osd, none, none, none, none⟩ := by
    simp [FS.lookupCheckpoint, alookup]
  rw [Trainer.load, Trainer.load, if_pos h1, if_pos h2]
  rw [Trainer.loadResolved, Trainer.loadResolved, hl1, hl2]
  rw [load_pretrain_congr env args
    ⟨(p, ⟨none, e, g, b, osd, some m, some c, some l, some ev⟩) :: rest, other, dirs⟩
    ⟨(p, ⟨some ⟨m, c, l, ev⟩, e, g, b, osd, none, none, none, none⟩) :: rest, other, dirs⟩
    (pathExists_key_congr p _ _ rest other dirs)]
  rfl

/-! ### Saving then loading -/

/-- Looking up a key in a state dict rewritten by `load_state_dict`'s merge. -/
theorem alookup_map_state (sd l : StateDict) (k : Str) :
    alookup k (l.map (fun kv => (kv.1, (alookup kv.1 sd).getD kv.2))) =
    (alookup k l).map (fun v => (alookup k sd).getD v) := by
  induction l with
  | nil => rfl
  | cons kv rest ih =>
    simp only [List.map_cons, alookup]
    by_cases h : kv.1 = k
    · subst h
      simp
    · simp [h, ih]

/-- A path that exists keeps existing after a `save` to any path. -/
theorem pathExists_save (t : Trainer) (fs : FS) (fn : Str) (eta : Option Int)
    (sm so : Bool) (q : Str) (h : fs.pathExists q = true) :
    ((Trainer.save t fs fn eta sm so).2).pathExists q = true := by
  simp only [FS.pathExists] at h
  simp only [Trainer.save, FS.write, FS.makedirs, FS.pathExists, alookup]
  by_cases hq : fn = q
  · simp [hq]
  · simp only [if_neg hq]
    exact h

/-- C1: saving a trainer and loading the same path (with elmo off, a usable
pretrain file, and a CNN-type model, i.e. the configuration the loader
supports) succeeds and reproduces the saved `epochs_trained`, `global_step`
and `best_score`; every model parameter present both in the saved dict and in
the reconstructed model carries the saved value (parameter fields added or
removed on either side are tolerated). -/
theorem save_load_round_trip
    (t : Trainer) (fs : FS) (fn : Str) (o : Option Int) (sm so : Bool)
    (env : Env) (args : Args) (pf : Str)
    (hcnn : t.model.config.model_type = ModelType.CNN)
    (helmo : args.use_elmo = false)
    (hpf : args.wordvec_pretrain_file = some pf)
    (hex : fs.pathExists pf = true) :
    ∃ t2 : Trainer,
      Trainer.load env (Trainer.save t fs fn o sm so).2 fn args false = Except.ok t2 ∧
      t2.epochs_trained = o.getD t.epochs_trained ∧
      t2.global_step = t.global_step ∧
      t2.best_score = t.best_score ∧
      (∀ k : Str,
        (alookup k (t.model.get_params sm).model).isSome = true →
        (alookup k t2.model.state).isSome = true →
        alookup k t2.model.state = alookup k (t.model.get_params sm).model) := by
  have hex2 : ((Trainer.save t fs fn o sm so).2).pathExists fn = true := by
    simp [Trainer.save, FS.write, FS.makedirs, FS.pathExists, alookup]
  have hex3 : ((Trainer.save t fs fn o sm so).2).pathExists pf = true :=
    pathExists_save t fs fn o sm so pf hex
  have hpre : Trainer.load_pretrain env (Trainer.save t fs fn o sm so).2 args =
      Except.ok (env.load_pretrain_file pf) := by
    rw [Trainer.load_pretrain, hpf]
    simp only [bind, Except.bind, hex3, if_true]
  have hmt : (t.model.get_params sm).config.model_type = ModelType.CNN := hcnn
  rw [Trainer.load, if_pos hex2, Trainer.loadResolved, save_lookup]
  simp only [bind, Except.bind]
  rw [hpre, helmo]
  simp only [Bool.false_eq_true, if_false, hmt]
  refine ⟨_, rfl, rfl, rfl, rfl, ?_⟩
  intro k h1 h2
  simp only [CNNClassifier.load_state_dict] at h2 ⊢
  rw [alookup_map_state] at h2 ⊢
  obtain ⟨w, hw⟩ := Option.isSome_iff_exists.mp h1
  obtain ⟨x, hx⟩ := Option.isSome_iff_exists.mp h2
  obtain ⟨v, hv, hfv⟩ := Option.map_eq_some'.mp hx
  rw [hv, hw]
  simp

/-! ### Tokenization -/

/-- When no element of the comprehension raises, `traverseOption` returns a
list of the same length, elementwise given by `f`. -/
theorem traverseOption_some {α β : Type} (f : α → Option β) (l : List α)
    (h : ∀ a ∈ l, (f a).isSome = true) :
    ∃ res : List β, traverseOption f l = some res ∧ res.length = l.length ∧
      ∀ (i : ℕ) (hi : i < l.length) (hr : i < res.length),
        f (l.get ⟨i, hi⟩) = some (res.get ⟨i, hr⟩) := by
  induction l with
  | nil =>
    exact ⟨[], rfl, rfl, fun i hi => absurd hi (Nat.not_lt_zero i)⟩
  | cons a l ih =>
    obtain ⟨b, hb⟩ := Option.isSome_iff_exists.mp (h a (List.mem_cons_self a l))
    obtain ⟨res, hres, hlen, hidx⟩ := ih (fun x hx => h x (List.mem_cons_of_mem a hx))
    refine ⟨b :: res, ?_, ?_, ?_⟩
    · rw [traverseOption, hb, hres]
    · simp [hlen]
    · intro i hi hr
      cases i with
      | zero => simpa using hb
      | succ n => exact hidx n (Nat.lt_of_succ_lt_succ hi) (Nat.lt_of_succ_lt_succ hr)

/-- C2: for both supported pipeline return shapes — a per-document list (one
document per input, each with at least a first sentence), or a single document
whose sentences align one-to-one with the inputs — `tokenize` succeeds with a
list of the input's length whose i-th datum keeps the i-th label and carries
as text the token strings the pipeline produced for that input. -/
theorem tokenize_preserves_count_and_labels
    (data : List (SentimentDatum Str)) (pipe : List Str → PipeResult) :
    (∀ out_docs : List Document,
      pipe (data.map (fun d => d.text)) = PipeResult.docs out_docs →
      out_docs.length = data.length →
      (∀ doc ∈ out_docs, doc.sentences ≠ []) →
      ∃ res, tokenize data pipe = some res ∧ res.length = data.length ∧
        ∀ (i : ℕ) (hi : i < data.length) (hr : i < res.length)
          (ho : i < out_docs.length),
          (res.get ⟨i, hr⟩).sentiment = (data.get ⟨i, hi⟩).sentiment ∧
          ∃ s, (out_docs.get ⟨i, ho⟩).sentences.head? = some s ∧
            (res.get ⟨i, hr⟩).text = s.tokens.map (fun t => t.text)) ∧
    (∀ out_doc : Document,
      pipe (data.map (fun d => d.text)) = PipeResult.single out_doc →
      out_doc.sentences.length = data.length →
      ∃ res, tokenize data pipe = some res ∧ res.length = data.length ∧
        ∀ (i : ℕ) (hi : i < data.length) (hr : i < res.length)
          (hs : i < out_doc.sentences.length),
          (res.get ⟨i, hr⟩).sentiment = (data.get ⟨i, hi⟩).sentiment ∧
          (res.get ⟨i, hr⟩).text =
            (out_doc.sentences.get ⟨i, hs⟩).tokens.map (fun t => t.text)) := by
  constructor
  · intro out_docs hpipe hlen hne
    have hall : ∀ p ∈ data.zip out_docs,
        ((p.2.sentences.head?).map
          (fun s => (⟨p.1.sentiment, s.tokens.map (fun t => t.text)⟩ :
            SentimentDatum (List Str)))).isSome = true := by
      intro p hp
      obtain ⟨a, b⟩ := p
      obtain ⟨h1, h2⟩ := List.of_mem_zip hp
      cases hsent : b.sentences with
      | nil => exact absurd hsent (hne b h2)
      | cons s ss => simp [hsent]
    obtain ⟨res, hres, hlen2, hidx⟩ := traverseOption_some _ _ hall
    refine ⟨res, ?_, ?_, ?_⟩
    · simp only [tokenize]
      rw [hpipe]
      exact hres
    · rw [hlen2, List.length_zip, hlen, Nat.min_self]
    · intro i hi hr ho
      have hiz : i < (data.zip out_docs).length := by
        rw [List.length_zip, hlen, Nat.min_self]
        exact hi
      have hfi := hidx i hiz hr
      have hget : (data.zip out_docs).get ⟨i, hiz⟩ =
          (data.get ⟨i, hi⟩, out_docs.get ⟨i, ho⟩) := by
        simp [List.get_eq_getElem, List.getElem_zip]
      rw [hget] at hfi
      obtain ⟨s, hs, hval⟩ := Option.map_eq_some'.mp hfi
      refine ⟨by rw [← hval], s, hs, by rw [← hval]⟩
  · intro out_doc hpipe hslen
    have hall : ∀ p ∈ data.enum,
        ((out_doc.sentences.get? p.1).map
          (fun s => (⟨p.2.sentiment, s.tokens.map (fun t => t.text)⟩ :
            SentimentDatum (List Str)))).isSome = true := by
      intro p hp
      have hlt : p.1 < data.length := List.fst_lt_of_mem_enum hp
      have : p.1 < out_doc.sentences.length := by rw [hslen]; exact hlt
      simp [List.get?_eq_getElem?, this]
    obtain ⟨res, hres, hlen2, hidx⟩ := traverseOption_some _ _ hall
    refine ⟨res, ?_, ?_, ?_⟩
    · simp only [tokenize]
      rw [hpipe]
      exact hres
    · rw [hlen2, List.enum_length]
    · intro i hi hr hs
      have hie : i < data.enum.length := by rw [List.enum_length]; exact hi
      have hfi := hidx i hie hr
      have hget : data.enum.get ⟨i, hie⟩ = (i, data.get ⟨i, hi⟩) := by
        simp [List.get_eq_getElem, List.getElem_enum]
      rw [hget] at hfi
      have hsome : out_doc.sentences.get? i = some (out_doc.sentences.get ⟨i, hs⟩) := by
        simp [List.get?_eq_getElem?, List.getElem?_eq_getElem hs]
      rw [hsome] at hfi
      simp only [Option.map_some'] at hfi
      rw [Option.some_inj] at hfi
      exact ⟨by rw [← hfi], by rw [← hfi]⟩

/-- Witness for C1 at a concrete trainer, file system, environment and args. -/
theorem save_load_round_trip_witness :
    ∃ t2 : Trainer,
      Trainer.load envW (Trainer.save trainerW1 ⟨[], [str "pt"], []⟩
          (str "d/m.pt") none true true).2 (str "d/m.pt") argsW false =
        Except.ok t2 ∧
      t2.epochs_trained = (none : Option Int).getD trainerW1.epochs_trained ∧
      t2.global_step = trainerW1.global_step ∧
      t2.best_score = trainerW1.best_score ∧
      (∀ k : Str,
        (alookup k (trainerW1.model.get_params true).model).isSome = true →
        (alookup k t2.model.state).isSome = true →
        alookup k t2.model.state = alookup k (trainerW1.model.get_params true).model) :=
  save_load_round_trip trainerW1 ⟨[], [str "pt"], []⟩ (str "d/m.pt") none true true
    envW argsW (str "pt") rfl rfl rfl (by decide)

/-- Concrete sentiment data for the tokenization witness. -/
def dataW : List (SentimentDatum Str) := [⟨0, str "ala ma"⟩, ⟨3, str "kot"⟩]

/-- Concrete per-document pipeline output for `dataW`. -/
def outDocsW : List Document :=
  [⟨[⟨[⟨str "ala"⟩, ⟨str "ma"⟩]⟩]⟩, ⟨[⟨[⟨str "kot"⟩]⟩]⟩]

/-- Concrete single-document pipeline output for `dataW`. -/
def outDocW : Document := ⟨[⟨[⟨str "ala"⟩, ⟨str "ma"⟩]⟩, ⟨[⟨str "kot"⟩]⟩]⟩

/-- A pipeline returning the per-document list shape. -/
def pipeDocsW : List Str → PipeResult := fun _ => PipeResult.docs outDocsW

/-- A pipeline returning the single-document shape. -/
def pipeSingleW : List Str → PipeResult := fun _ => PipeResult.single outDocW

/-- Witness for C2 at concrete data and a concrete pipeline of each shape. -/
theorem tokenize_preserves_count_and_labels_witness :
    (∃ res, tokenize dataW pipeDocsW = some res ∧ res.length = dataW.length ∧
      ∀ (i : ℕ) (hi : i < dataW.length) (hr : i < res.length)
        (ho : i < outDocsW.length),
        (res.get ⟨i, hr⟩).sentiment = (dataW.get ⟨i, hi⟩).sentiment ∧
        ∃ s, (outDocsW.get ⟨i, ho⟩).sentences.head? = some s ∧
          (res.get ⟨i, hr⟩).text = s.tokens.map (fun t => t.text)) ∧
    (∃ res, tokenize dataW pipeSingleW = some res ∧ res.length = dataW.length ∧
      ∀ (i : ℕ) (hi : i < dataW.length) (hr : i < res.length)
        (hs : i < outDocW.sentences.length),
        (res.get ⟨i, hr⟩).sentiment = (dataW.get ⟨i, hi⟩).sentiment ∧
        (res.get ⟨i, hr⟩).text =
          (outDocW.sentences.get ⟨i, hs⟩).tokens.map (fun t => t.text)) :=
  ⟨(tokenize_preserves_count_and_labels dataW pipeDocsW).1 outDocsW rfl
      (by decide) (by decide),
   (tokenize_preserves_count_and_labels dataW pipeSingleW).2 outDocW rfl
      (by decide)⟩

end Stanza
